import Mathlib

/-!
# go-sgRule: security-group rules from a CSV file

A shallow embedding of `main.go`.  Go strings are Lean `String`s (sequences of
Unicode code points), `int64` values are `Int`s, slices are `List`s.  A Go
panic is an explicit failure value.  Calls to the EC2 API are not executed:
each authorizer is modelled up to the request value it builds, and the group
resolver is an oracle supplied by the environment.
-/

namespace SgRule

/-! ## Library functions used by the program -/

/-- Go `strings.Contains(s, substr)`: `substr` occurs somewhere inside `s`. -/
def stringsContains (s substr : String) : Bool :=
  s.data.tails.any (fun t => substr.data.isPrefixOf t)

/-- Go `unicode.IsSpace`: the Latin-1 spaces and the code points with the
Unicode White_Space property. -/
def isSpace (c : Char) : Bool :=
  let n := c.toNat
  n == 0x09 || n == 0x0A || n == 0x0B || n == 0x0C || n == 0x0D || n == 0x20 ||
  n == 0x85 || n == 0xA0 || n == 0x1680 || (0x2000 ≤ n && n ≤ 0x200A) ||
  n == 0x2028 || n == 0x2029 || n == 0x202F || n == 0x205F || n == 0x3000

/-- Go `strings.TrimSpace`: drop the leading and the trailing white space. -/
def stringsTrimSpace (s : String) : String :=
  ⟨((s.data.dropWhile isSpace).reverse.dropWhile isSpace).reverse⟩

/-- Splitting of a character list at every occurrence of `sep`; `cur` holds
the characters of the piece being read, last one first. -/
def splitChars (sep : Char) : List Char → List Char → List String
  | cur, [] => [⟨cur.reverse⟩]
  | cur, c :: cs =>
    if c = sep then ⟨cur.reverse⟩ :: splitChars sep [] cs
    else splitChars sep (c :: cur) cs

/-- Go `strings.Split(s, sep)` for a separator of one character (the program
only splits on `" "`): the pieces between the separators, in order. -/
def stringsSplit (s : String) (sep : Char) : List String :=
  splitChars sep [] s.data

/-- Value of a decimal digit, `none` for any other character. -/
def digitVal (c : Char) : Option Nat :=
  if 48 ≤ c.toNat ∧ c.toNat ≤ 57 then some (c.toNat - 48) else none

/-- The digits loop of Go `strconv.ParseUint(s, 10, 64)` without its overflow
check: the value read so far is `acc`; a character that is no decimal digit is
a syntax error. -/
def parseDigits : Nat → List Char → Option Nat
  | acc, [] => some acc
  | acc, c :: cs =>
    match digitVal c with
    | none => none
    | some d => parseDigits (acc * 10 + d) cs

/-- Unsigned part of `strconv.ParseInt`: at least one character, all of them
decimal digits. -/
def parseUnsigned (cs : List Char) : Option Nat :=
  match cs with
  | [] => none
  | _ :: _ => parseDigits 0 cs

/-- Go `strconv.ParseInt(s, 10, 64)`: an optional sign, then decimal digits,
the value within the range of `int64`; `none` is a returned error. -/
def strconvParseInt (s : String) : Option Int :=
  match s.data with
  | [] => none
  | '+' :: cs =>
    match parseUnsigned cs with
    | none => none
    | some un => if un < 2 ^ 63 then some (Int.ofNat un) else none
  | '-' :: cs =>
    match parseUnsigned cs with
    | none => none
    | some un => if un ≤ 2 ^ 63 then some (-(Int.ofNat un)) else none
  | cs =>
    match parseUnsigned cs with
    | none => none
    | some un => if un < 2 ^ 63 then some (Int.ofNat un) else none

/-- First loop of Go `os.basename`, on the reversed name: drop trailing
slashes while more than one character is left. -/
def dropTrailingSlashes : List Char → List Char
  | '/' :: c :: rest => dropTrailingSlashes (c :: rest)
  | r => r

/-- Go `os.basename`, the value of `FileInfo.Name()` for the path given to
`os.Stat`: the part after the last slash, trailing slashes removed. -/
def basename (name : String) : String :=
  match dropTrailingSlashes name.data.reverse with
  | [] => ""
  | c :: rest => ⟨(c :: rest.takeWhile (fun x => x != '/')).reverse⟩

/-! ## Data model -/

/-- The `data` struct: one parsed CSV row. -/
structure data where
  source : List String
  dest : String
  protocol : String
  description : String
  port : String
  direction : String
  deriving DecidableEq, Repr

/-- Constant `inbound`. -/
def inbound : String := "inbound"

/-- Constant `outbound`. -/
def outbound : String := "outbound"

/-- The `ec2.IpRange` fields the program sets. -/
structure IpRange where
  CidrIp : String
  Description : String
  deriving DecidableEq, Repr

/-- The `ec2.IpPermission` fields the program sets. -/
structure IpPermission where
  IpProtocol : String
  FromPort : Int
  IpRanges : List IpRange
  ToPort : Int
  deriving DecidableEq, Repr

/-- The `ec2.AuthorizeSecurityGroupIngressInput` request. -/
structure AuthorizeSecurityGroupIngressInput where
  IpPermissions : List IpPermission
  GroupId : String
  deriving DecidableEq, Repr

/-- The `ec2.AuthorizeSecurityGroupEgressInput` request. -/
structure AuthorizeSecurityGroupEgressInput where
  IpPermissions : List IpPermission
  GroupId : String
  deriving DecidableEq, Repr

/-! ## Rule authorizer -/

/-- One pass of the body of `for i := range ip` in the authorizers: append the
range built from `s` to `ips`. -/
def appendRange (desc : String) (ips : List IpRange) (s : String) : List IpRange :=
  if stringsContains s "/" then
    ips ++ [{ CidrIp := s, Description := desc }]
  else
    ips ++ [{ CidrIp := s ++ "/32", Description := desc }]

/-- The `ips` slice built by `createInboundSGRule` (lines 182-214): the loop
over `ip` when `len(ip) > 1`, otherwise the range of `ip[0]`; `none` is the
index-out-of-range panic of `ip[0]` on an empty slice. -/
def inboundIps (desc : String) (ip : List String) : Option (List IpRange) :=
  if ip.length > 1 then
    some (ip.foldl (appendRange desc) [])
  else
    match ip[0]? with
    | none => none
    | some s =>
      if stringsContains s "/" then
        some ([] ++ [{ CidrIp := s, Description := desc }])
      else
        some ([] ++ [{ CidrIp := s ++ "/32", Description := desc }])

/-- The `ips` slice built by `createOutBoundSGRule` (lines 236-268), the same
text as in the inbound variant. -/
def outboundIps (desc : String) (ip : List String) : Option (List IpRange) :=
  if ip.length > 1 then
    some (ip.foldl (appendRange desc) [])
  else
    match ip[0]? with
    | none => none
    | some s =>
      if stringsContains s "/" then
        some ([] ++ [{ CidrIp := s, Description := desc }])
      else
        some ([] ++ [{ CidrIp := s ++ "/32", Description := desc }])

/-- The request `createInboundSGRule` builds and sends (lines 180-225). -/
def createInboundSGRule (protocol sgID desc : String) (ip : List String) (port : Int) :
    Option AuthorizeSecurityGroupIngressInput :=
  match inboundIps desc ip with
  | none => none
  | some ips =>
    some { IpPermissions :=
             [{ IpProtocol := protocol, FromPort := port, IpRanges := ips, ToPort := port }],
           GroupId := sgID }

/-- The request `createOutBoundSGRule` builds and sends (lines 234-279). -/
def createOutBoundSGRule (protocol sgID desc : String) (ip : List String) (port : Int) :
    Option AuthorizeSecurityGroupEgressInput :=
  match outboundIps desc ip with
  | none => none
  | some ips =>
    some { IpPermissions :=
             [{ IpProtocol := protocol, FromPort := port, IpRanges := ips, ToPort := port }],
           GroupId := sgID }

/-! ## CSV loader -/

/-- The records `csv.Reader.ReadAll` returns: rows of fields. -/
abbrev Records := List (List String)

/-- A value passed to `panic`. -/
inductive Panic
  | errorsNew (text : String)
  | config
  | osOpen
  | csvReadAll
  | indexOutOfRange
  | nilDereference
  | strconvParseInt
  deriving DecidableEq, Repr

/-- The bucketing loop of `readCSV` (lines 133-157), started at row number
`index` with the two lists built so far.  `none` is the index-out-of-range
panic of `row[5]` on a row with fewer than six fields. -/
def bucketLoop : Nat → Records → List data → List data → Option (List data × List data)
  | _, [], parseINBdata, parseOUTBdata => some (parseINBdata, parseOUTBdata)
  | index, row :: rest, parseINBdata, parseOUTBdata =>
    if index = 0 then
      bucketLoop (index + 1) rest parseINBdata parseOUTBdata
    else
      match row with
      | row0 :: row1 :: row2 :: row3 :: row4 :: row5 :: _ =>
        let bound := stringsTrimSpace row5
        if bound = inbound then
          bucketLoop (index + 1) rest
            (parseINBdata ++ [{ dest := row0, protocol := row1, description := row2,
                                port := row3,
                                source := stringsSplit (stringsTrimSpace row4) ' ',
                                direction := bound }])
            parseOUTBdata
        else if bound = outbound then
          bucketLoop (index + 1) rest parseINBdata
            (parseOUTBdata ++ [{ dest := row0, protocol := row1, description := row2,
                                 port := row3,
                                 source := stringsSplit (stringsTrimSpace row4) ' ',
                                 direction := bound }])
        else
          bucketLoop (index + 1) rest parseINBdata parseOUTBdata
      | _ => none

/-- Lines 130-157 of `readCSV`: both lists start empty and the loop runs over
all records from row number 0. -/
def bucket (allRecords : Records) : Option (List data × List data) :=
  bucketLoop 0 allRecords [] []

/-- What the operating system answers for a path: `os.Stat` fails with an
error for which `os.IsNotExist` holds; `os.Stat` fails with another error
(permission denied, a path component that is no directory), and so does
`os.Open`; or a file is there, whose content `ReadAll` rejects (`none`) or
parses into records. -/
inductive FileEntry
  | notExist
  | statError
  | file (content : Option Records)
  deriving DecidableEq, Repr

/-- The file system seen by the program, path by path. -/
abbrev FileSystem := String → FileEntry

/-- What a run of the `readCSV` goroutine leaves behind: the panic value its
deferred `errRecover` printed, if any, and the values it sent on `ch`. -/
structure LoaderRun where
  recovered : Option Panic
  sent : List (List data)
  deriving DecidableEq, Repr

/-- Function `readCSV` (lines 112-160).  When `os.Stat` fails, the not-found
panic is raised only under `os.IsNotExist(err)`; after any other error `finfo`
is nil and `finfo.Name()` on line 120 panics.  The file opened is the one at
`finfo.Name()`, the base name of `pathTocsv`.  Every panic is caught by the
deferred `errRecover`, and then nothing is sent on `ch`. -/
def readCSV (fs : FileSystem) (pathTocsv : String) : LoaderRun :=
  match fs pathTocsv with
  | .notExist =>
    { recovered := some (.errorsNew "File does not exist, in the mentioned path"), sent := [] }
  | .statError => { recovered := some .nilDereference, sent := [] }
  | .file _ =>
    match fs (basename pathTocsv) with
    | .notExist => { recovered := some .osOpen, sent := [] }
    | .statError => { recovered := some .osOpen, sent := [] }
    | .file none => { recovered := some .csvReadAll, sent := [] }
    | .file (some allRecords) =>
      match bucket allRecords with
      | none => { recovered := some .indexOutOfRange, sent := [] }
      | some (parseINBdata, parseOUTBdata) =>
        { recovered := none, sent := [parseINBdata, parseOUTBdata] }

/-- The two receives `inboundDATA := <-csch; outboundDATA := <-csch` of `main`
(lines 56-57): `none` when fewer than two values are ever sent, so that `main`
stays blocked on the channel. -/
def awaitLists (sent : List (List data)) : Option (List data × List data) :=
  match sent with
  | inboundDATA :: outboundDATA :: _ => some (inboundDATA, outboundDATA)
  | _ => none

/-! ## Orchestrator -/

/-- Which of the two loops of `main` is running. -/
inductive Bound
  | inb
  | outb
  deriving DecidableEq, Repr

/-- The actions of `main` in its two loops: a call of the resolver together
with the group ID received on `sgch` (`none`: the resolver goroutine
panicked), and the goroutines launched with their arguments. -/
inductive Event
  | getSGfromIP (ip : String) (result : Option String)
  | createInboundSGRule (protocol sgID desc : String) (ip : List String) (port : Int)
  | createOutBoundSGRule (protocol sgID desc : String) (ip : List String) (port : Int)
  | getSGRules (sgid : String)
  deriving DecidableEq, Repr

/-- How a loop of `main` ends: it runs to its end; the resolver goroutine,
which has no deferred `errRecover`, panics and the process dies; or `main`
itself panics, its deferred `errRecover` prints the value and `main` returns. -/
inductive Ending
  | completed
  | crashed
  | recovered (p : Panic)
  deriving DecidableEq, Repr

/-- Result of one loop of `main`: the events of each iteration entered, the
number of resolver calls made so far, and how the loop ended. -/
structure RowsRun where
  trace : List (List Event)
  calls : Nat
  ending : Ending
  deriving DecidableEq, Repr

/-- The authorizer goroutine launched for a row. -/
def launch (bound : Bound) (v : data) (sgID : String) (port : Int) : Event :=
  match bound with
  | .inb => .createInboundSGRule v.protocol sgID v.description v.source port
  | .outb => .createOutBoundSGRule v.protocol sgID v.description v.source port

/-- One loop of `main` over a list of rule records (lines 60-74 for inbound,
75-89 for outbound).  `prev` is the record before the current one
(`inboundDATA[i-1]`), absent exactly when `i == 0`; `sgID` is the variable
`insgID` or `outsgID`; `resolve n ip` is what the `n`-th call of `getSGfromIP`
sends back for `ip`, `none` when it panics. -/
def processRows (resolve : Nat → String → Option String) (bound : Bound) :
    Option data → String → Nat → List data → RowsRun
  | _, _, calls, [] => { trace := [], calls := calls, ending := .completed }
  | prev, sgID, calls, v :: rest =>
    let invoke : Bool :=
      match prev with
      | none => true
      | some p => v.dest != p.dest
    if invoke then
      match resolve calls v.dest with
      | none =>
        { trace := [[.getSGfromIP v.dest none]], calls := calls + 1, ending := .crashed }
      | some g =>
        match strconvParseInt v.port with
        | none =>
          { trace := [[.getSGfromIP v.dest (some g)]], calls := calls + 1,
            ending := .recovered .strconvParseInt }
        | some port =>
          let r := processRows resolve bound (some v) g (calls + 1) rest
          { r with trace := [.getSGfromIP v.dest (some g), launch bound v g port,
                             .getSGRules g] :: r.trace }
    else
      match strconvParseInt v.port with
      | none => { trace := [[]], calls := calls, ending := .recovered .strconvParseInt }
      | some port =>
        let r := processRows resolve bound (some v) sgID calls rest
        { r with trace := [launch bound v sgID port, .getSGRules sgID] :: r.trace }

/-- How a run of `main` ends. -/
inductive Exit
  | usage
  | blockedOnLoader
  | crashed
  | recovered (p : Panic)
  | collecting
  deriving DecidableEq, Repr

/-- A run of `main`: the events of the inbound and of the outbound loop and
the way the run ends (`collecting`: both loops ran to their end and `main`
went on to collect the results). -/
structure MainRun where
  inboundTrace : List (List Event)
  outboundTrace : List (List Event)
  exit : Exit
  deriving DecidableEq, Repr

/-- Lines 58-89 of `main`: the inbound loop, then the outbound loop; a loop
that does not run to its end ends the run. -/
def orchestrate (resolve : Nat → String → Option String)
    (inboundDATA outboundDATA : List data) : MainRun :=
  let r1 := processRows resolve .inb none "" 0 inboundDATA
  match r1.ending with
  | .crashed => { inboundTrace := r1.trace, outboundTrace := [], exit := .crashed }
  | .recovered p => { inboundTrace := r1.trace, outboundTrace := [], exit := .recovered p }
  | .completed =>
    let r2 := processRows resolve .outb none "" r1.calls outboundDATA
    match r2.ending with
    | .crashed => { inboundTrace := r1.trace, outboundTrace := r2.trace, exit := .crashed }
    | .recovered p =>
      { inboundTrace := r1.trace, outboundTrace := r2.trace, exit := .recovered p }
    | .completed =>
      { inboundTrace := r1.trace, outboundTrace := r2.trace, exit := .collecting }

/-- Function `main` up to the collection loops (lines 34-89).  `cfgLoaded`
tells whether `LoadDefaultAWSConfig` succeeded, `file` is the value of the
`source` flag. -/
def main (cfgLoaded : Bool) (file : String) (fs : FileSystem)
    (resolve : Nat → String → Option String) : MainRun :=
  if !cfgLoaded then
    { inboundTrace := [], outboundTrace := [], exit := .recovered .config }
  else if file = "" then
    { inboundTrace := [], outboundTrace := [], exit := .usage }
  else
    match awaitLists (readCSV fs file).sent with
    | none => { inboundTrace := [], outboundTrace := [], exit := .blockedOnLoader }
    | some (inboundDATA, outboundDATA) => orchestrate resolve inboundDATA outboundDATA

/-! ## Specification-side definitions -/

/-- The range the authorizers build for one source, as the specification
words it: a source without a slash gets `/32` appended, any other source is
kept as it is. -/
def specRange (desc : String) (s : String) : IpRange :=
  { CidrIp := if '/' ∈ s.data then s else s ++ "/32", Description := desc }

/-- The record the specification derives from a data row: columns 0 to 3 as
they are, column 4 trimmed and split on single spaces, column 5 trimmed. -/
def specRecord (row : List String) : data :=
  { dest := row.getD 0 "", protocol := row.getD 1 "", description := row.getD 2 "",
    port := row.getD 3 "",
    source := stringsSplit (stringsTrimSpace (row.getD 4 "")) ' ',
    direction := stringsTrimSpace (row.getD 5 "") }

/-- A data row is bucketed under `dir` when its direction column, trimmed,
reads `dir`. -/
def bucketedAs (dir : String) (row : List String) : Bool :=
  stringsTrimSpace (row.getD 5 "") == dir

/-- Every data row has the six columns the loader reads. -/
def sixColumns (rows : Records) : Bool :=
  rows.all (fun row => decide (6 ≤ row.length))

/-- The two lists of the specification: the data rows bucketed as inbound and
those bucketed as outbound, each in input order. -/
def specBuckets (rows : Records) : List data × List data :=
  ((rows.filter (bucketedAs inbound)).map specRecord,
   (rows.filter (bucketedAs outbound)).map specRecord)

/-- Record `i` starts a run: it is the first record, or its `dest` differs from
the `dest` of the record just before it. -/
def startsRun (rows : List data) (i : Nat) : Bool :=
  i == 0 || (rows[i]?.map data.dest != rows[i - 1]?.map data.dest)

/-- The same as `startsRun` for a list that continues after the record `prev`. -/
def startsFrom (prev : Option data) (rows : List data) : Nat → Bool
  | 0 =>
    match prev with
    | none => true
    | some p => rows[0]?.map data.dest != some p.dest
  | k + 1 => rows[k + 1]?.map data.dest != rows[k]?.map data.dest

/-- The addresses the resolver was called with, in order. -/
def resolverCalls : List Event → List String
  | [] => []
  | .getSGfromIP ip _ :: rest => ip :: resolverCalls rest
  | _ :: rest => resolverCalls rest

/-- The maximal runs of consecutive equal destinations. -/
def destRuns (rows : List data) : List (List String) :=
  (rows.map data.dest).splitBy (fun a b => a == b)

/-- Number of places in `a :: l` where an element differs from the one before. -/
def changes : String → List String → Nat
  | _, [] => 0
  | a, b :: l => (if a == b then 0 else 1) + changes b l

/-- Number of records of `rows` that start a run, `rows` continuing after `prev`. -/
def startCount (prev : Option data) (rows : List data) : Nat :=
  match rows with
  | [] => 0
  | v :: rest =>
    (if startsFrom prev rows 0 = true then 1 else 0) + changes v.dest (rest.map data.dest)

/-! ## Helper lemmas -/

theorem stringsContains_slash (s : String) :
    stringsContains s "/" = true ↔ '/' ∈ s.data := by
  unfold stringsContains
  have h : ("/" : String).data = ['/'] := rfl
  rw [h]
  generalize s.data = l
  induction l with
  | nil => simp [List.isPrefixOf]
  | cons c cs ih =>
    simp only [List.tails, List.any_cons, Bool.or_eq_true, ih, List.mem_cons]
    have hp : List.isPrefixOf ['/'] (c :: cs) = true ↔ '/' = c := by
      simp [List.isPrefixOf]
    rw [hp]

theorem appendRange_eq (desc : String) (ips : List IpRange) (s : String) :
    appendRange desc ips s = ips ++ [specRange desc s] := by
  unfold appendRange specRange
  by_cases h : '/' ∈ s.data
  · simp [h, (stringsContains_slash s).2 h]
  · have h2 : stringsContains s "/" = false := by
      cases hc : stringsContains s "/" with
      | false => rfl
      | true => exact absurd ((stringsContains_slash s).1 hc) h
    simp [h, h2]

theorem foldl_appendRange (desc : String) (ip : List String) (ips : List IpRange) :
    ip.foldl (appendRange desc) ips = ips ++ ip.map (specRange desc) := by
  induction ip generalizing ips with
  | nil => simp
  | cons s rest ih => simp [List.foldl_cons, ih, appendRange_eq]

theorem inboundIps_eq (desc : String) (ip : List String) (h : ip ≠ []) :
    inboundIps desc ip = some (ip.map (specRange desc)) := by
  unfold inboundIps
  match ip, h with
  | [s], _ =>
    have := appendRange_eq desc [] s
    unfold appendRange at this
    by_cases hc : stringsContains s "/" = true
    · simpa [hc] using this
    · simpa [hc] using this
  | s :: t :: rest, _ =>
    rw [if_pos (by simp), foldl_appendRange]
    simp

theorem outboundIps_eq_inboundIps (desc : String) (ip : List String) :
    outboundIps desc ip = inboundIps desc ip := rfl

theorem bucketLoop_succ (n : Nat) (rows : Records) (inb outb : List data) :
    bucketLoop (n + 1) rows inb outb =
      if sixColumns rows then
        some (inb ++ (specBuckets rows).1, outb ++ (specBuckets rows).2)
      else none := by
  induction rows generalizing n inb outb with
  | nil => simp [bucketLoop, sixColumns, specBuckets]
  | cons row rest ih =>
    rcases row with _ | ⟨r0, _ | ⟨r1, _ | ⟨r2, _ | ⟨r3, _ | ⟨r4, _ | ⟨r5, tl⟩⟩⟩⟩⟩⟩
    case cons.cons.cons.cons.cons.cons =>
      have hio : inbound ≠ outbound := by decide
      by_cases h1 : stringsTrimSpace r5 = inbound
      · have h2 : stringsTrimSpace r5 ≠ outbound := by
          rw [h1]
          exact hio
        simp only [bucketLoop, Nat.succ_ne_zero, if_false, h1, if_true, ih]
        simp [sixColumns, specBuckets, bucketedAs, specRecord, h1, hio]
      · by_cases h2 : stringsTrimSpace r5 = outbound
        · simp only [bucketLoop, Nat.succ_ne_zero, if_false, h1, h2, if_true, ih]
          simp [sixColumns, specBuckets, bucketedAs, specRecord, h2, hio.symm]
        · simp only [bucketLoop, Nat.succ_ne_zero, if_false, h1, h2, ih]
          simp [sixColumns, specBuckets, bucketedAs, h1, h2]
    all_goals simp [bucketLoop, sixColumns]

theorem bucket_cons (hdr : List String) (rows : Records) :
    bucket (hdr :: rows) =
      if sixColumns rows then some (specBuckets rows) else none := by
  have h0 : bucketLoop 0 (hdr :: rows) [] [] = bucketLoop (0 + 1) rows [] [] := by
    simp [bucketLoop]
  unfold bucket
  rw [h0, bucketLoop_succ]
  simp

theorem splitChars_ne_nil (sep : Char) (cur cs : List Char) : splitChars sep cur cs ≠ [] := by
  induction cs generalizing cur with
  | nil => simp [splitChars]
  | cons c cs ih =>
    unfold splitChars
    split
    · simp
    · exact ih _

theorem startsRun_eq_startsFrom (rows : List data) (i : Nat) :
    startsRun rows i = startsFrom none rows i := by
  cases i with
  | zero => simp [startsRun, startsFrom]
  | succ k => simp [startsRun, startsFrom]

theorem processRows_cons_start (resolve : Nat → String → Option String) (bound : Bound)
    (prev : Option data) (sg : String) (c : Nat) (v : data) (rest : List data)
    (g : String) (p : Int) (hs : startsFrom prev (v :: rest) 0 = true)
    (hg : resolve c v.dest = some g) (hp : strconvParseInt v.port = some p) :
    (processRows resolve bound prev sg c (v :: rest)).trace =
      [.getSGfromIP v.dest (some g), launch bound v g p, .getSGRules g] ::
        (processRows resolve bound (some v) g (c + 1) rest).trace ∧
    (processRows resolve bound prev sg c (v :: rest)).calls =
      (processRows resolve bound (some v) g (c + 1) rest).calls ∧
    (processRows resolve bound prev sg c (v :: rest)).ending =
      (processRows resolve bound (some v) g (c + 1) rest).ending := by
  cases prev with
  | none => simp [processRows, hg, hp]
  | some q =>
    have hq : (v.dest != q.dest) = true := by simpa [startsFrom] using hs
    simp [processRows, hq, hg, hp]

theorem processRows_cons_same (resolve : Nat → String → Option String) (bound : Bound)
    (prev : Option data) (sg : String) (c : Nat) (v : data) (rest : List data)
    (p : Int) (hs : startsFrom prev (v :: rest) 0 = false)
    (hp : strconvParseInt v.port = some p) :
    (processRows resolve bound prev sg c (v :: rest)).trace =
      [launch bound v sg p, .getSGRules sg] ::
        (processRows resolve bound (some v) sg c rest).trace ∧
    (processRows resolve bound prev sg c (v :: rest)).calls =
      (processRows resolve bound (some v) sg c rest).calls ∧
    (processRows resolve bound prev sg c (v :: rest)).ending =
      (processRows resolve bound (some v) sg c rest).ending := by
  cases prev with
  | none => simp [startsFrom] at hs
  | some q =>
    have hq : (v.dest != q.dest) = false := by simpa [startsFrom] using hs
    simp [processRows, hq, hp]

theorem processRows_completes (resolve : Nat → String → Option String) (bound : Bound)
    (rows : List data) :
    ∀ (prev : Option data) (sg : String) (c : Nat),
      (∀ v ∈ rows, ∃ p, strconvParseInt v.port = some p) →
      (∀ n, ∀ v ∈ rows, ∃ g, resolve n v.dest = some g) →
      (processRows resolve bound prev sg c rows).ending = .completed ∧
      (processRows resolve bound prev sg c rows).trace.length = rows.length := by
  induction rows with
  | nil => intros; simp [processRows]
  | cons v rest ih =>
    intro prev sg c hport hres
    obtain ⟨p, hp⟩ := hport v (List.mem_cons_self _ _)
    obtain ⟨g, hg⟩ := hres c v (List.mem_cons_self _ _)
    have hport2 : ∀ w ∈ rest, ∃ p, strconvParseInt w.port = some p :=
      fun w hw => hport w (List.mem_cons_of_mem _ hw)
    have hres2 : ∀ n, ∀ w ∈ rest, ∃ g, resolve n w.dest = some g :=
      fun n w hw => hres n w (List.mem_cons_of_mem _ hw)
    cases hs : startsFrom prev (v :: rest) 0 with
    | true =>
      obtain ⟨ht, _, he⟩ := processRows_cons_start resolve bound prev sg c v rest g p hs hg hp
      have := ih (some v) g (c + 1) hport2 hres2
      rw [ht, he]
      simp [this]
    | false =>
      obtain ⟨ht, _, he⟩ := processRows_cons_same resolve bound prev sg c v rest p hs hp
      have := ih (some v) sg c hport2 hres2
      rw [ht, he]
      simp [this]

theorem processRows_shape (resolve : Nat → String → Option String) (bound : Bound)
    (rows : List data) :
    ∀ (prev : Option data) (sg : String) (c : Nat),
      (∀ v ∈ rows, ∃ p, strconvParseInt v.port = some p) →
      (∀ n, ∀ v ∈ rows, ∃ g, resolve n v.dest = some g) →
      ∀ (i : Nat) (hi : i < rows.length), ∃ g p,
        strconvParseInt (rows.get ⟨i, hi⟩).port = some p ∧
        (processRows resolve bound prev sg c rows).trace[i]? =
          some ((if startsFrom prev rows i = true then
                  [Event.getSGfromIP (rows.get ⟨i, hi⟩).dest (some g)] else []) ++
                [launch bound (rows.get ⟨i, hi⟩) g p, Event.getSGRules g]) ∧
        (startsFrom prev rows i = false →
          (i = 0 ∧ g = sg) ∨
          (0 < i ∧ ∃ evs, (processRows resolve bound prev sg c rows).trace[i - 1]? = some evs ∧
            Event.getSGRules g ∈ evs)) := by
  induction rows with
  | nil => intro _ _ _ _ _ i hi; exact absurd hi (by simp)
  | cons v rest ih =>
    intro prev sg c hport hres i hi
    obtain ⟨p, hp⟩ := hport v (List.mem_cons_self _ _)
    obtain ⟨g, hg⟩ := hres c v (List.mem_cons_self _ _)
    have hport2 : ∀ w ∈ rest, ∃ p, strconvParseInt w.port = some p :=
      fun w hw => hport w (List.mem_cons_of_mem _ hw)
    have hres2 : ∀ n, ∀ w ∈ rest, ∃ g, resolve n w.dest = some g :=
      fun n w hw => hres n w (List.mem_cons_of_mem _ hw)
    -- the state after the first record
    obtain ⟨g0, c0, ht, hfirst⟩ : ∃ g0 c0,
        (processRows resolve bound prev sg c (v :: rest)).trace =
          ((if startsFrom prev (v :: rest) 0 = true then
              [Event.getSGfromIP v.dest (some g0)] else []) ++
            [launch bound v g0 p, Event.getSGRules g0]) ::
            (processRows resolve bound (some v) g0 c0 rest).trace ∧
        (startsFrom prev (v :: rest) 0 = false → g0 = sg) := by
      cases hs : startsFrom prev (v :: rest) 0 with
      | true =>
        refine ⟨g, c + 1, ?_, by simp⟩
        rw [(processRows_cons_start resolve bound prev sg c v rest g p hs hg hp).1]
        simp
      | false =>
        refine ⟨sg, c, ?_, by simp⟩
        rw [(processRows_cons_same resolve bound prev sg c v rest p hs hp).1]
        simp
    cases i with
    | zero =>
      refine ⟨g0, p, hp, ?_, ?_⟩
      · rw [ht]
        simp
      · intro hs
        exact Or.inl ⟨rfl, hfirst hs⟩
    | succ k =>
      have hk : k < rest.length := by simpa using hi
      obtain ⟨g1, p1, hp1, hshape, hprev⟩ := ih (some v) g0 c0 hport2 hres2 k hk
      have hsf : startsFrom prev (v :: rest) (k + 1) = startsFrom (some v) rest k := by
        cases k with
        | zero => simp [startsFrom]
        | succ m => simp [startsFrom]
      refine ⟨g1, p1, by simpa using hp1, ?_, ?_⟩
      · rw [ht, hsf]
        simpa using hshape
      · intro hs
        rw [hsf] at hs
        refine Or.inr ⟨Nat.succ_pos k, ?_⟩
        rcases hprev hs with ⟨hk0, hg1⟩ | ⟨hkpos, evs, hevs, hmem⟩
        · subst hk0
          subst hg1
          rw [ht]
          refine ⟨(if startsFrom prev (v :: rest) 0 = true then
              [Event.getSGfromIP v.dest (some g1)] else []) ++
            [launch bound v g1 p, Event.getSGRules g1], ?_, ?_⟩
          · simp
          · simp
        · refine ⟨evs, ?_, hmem⟩
          rw [ht]
          obtain ⟨m, rfl⟩ : ∃ m, k = m + 1 := ⟨k - 1, by omega⟩
          simpa using hevs

theorem splitByLoop_length (l : List String) :
    ∀ (a : String) (g : List String) (gs : List (List String)),
      (List.splitBy.loop (fun a b => a == b) l a g gs).length =
        gs.length + 1 + changes a l := by
  induction l with
  | nil => intro a g gs; simp [List.splitBy.loop, changes]
  | cons b l ih =>
    intro a g gs
    rw [List.splitBy.loop]
    cases h : (a == b) with
    | true => simp [ih, changes, h]
    | false =>
      simp [ih, changes, h]
      omega

theorem destRuns_length (v : data) (rest : List data) :
    (destRuns (v :: rest)).length = 1 + changes v.dest (rest.map data.dest) := by
  unfold destRuns
  rw [List.map_cons, List.splitBy, splitByLoop_length]
  simp

theorem resolverCalls_append (xs ys : List Event) :
    resolverCalls (xs ++ ys) = resolverCalls xs ++ resolverCalls ys := by
  induction xs with
  | nil => rfl
  | cons e xs ih => cases e <;> simp [resolverCalls, ih]

theorem startCount_some (v : data) (rest : List data) :
    startCount (some v) rest = changes v.dest (rest.map data.dest) := by
  cases rest with
  | nil => rfl
  | cons w rest2 =>
    simp only [startCount, startsFrom, List.map_cons, changes]
    by_cases h : v.dest = w.dest
    · simp [h]
    · have h2 : ¬ w.dest = v.dest := fun e => h e.symm
      simp [h, h2]

theorem processRows_calls (resolve : Nat → String → Option String) (bound : Bound)
    (rows : List data) :
    ∀ (prev : Option data) (sg : String) (c : Nat),
      (∀ v ∈ rows, ∃ p, strconvParseInt v.port = some p) →
      (∀ n, ∀ v ∈ rows, ∃ g, resolve n v.dest = some g) →
      (resolverCalls (processRows resolve bound prev sg c rows).trace.flatten).length =
        startCount prev rows ∧
      (processRows resolve bound prev sg c rows).calls = c + startCount prev rows := by
  induction rows with
  | nil => intros; simp [processRows, startCount, resolverCalls]
  | cons v rest ih =>
    intro prev sg c hport hres
    obtain ⟨p, hp⟩ := hport v (List.mem_cons_self _ _)
    obtain ⟨g, hg⟩ := hres c v (List.mem_cons_self _ _)
    have hport2 : ∀ w ∈ rest, ∃ p, strconvParseInt w.port = some p :=
      fun w hw => hport w (List.mem_cons_of_mem _ hw)
    have hres2 : ∀ n, ∀ w ∈ rest, ∃ g, resolve n w.dest = some g :=
      fun n w hw => hres n w (List.mem_cons_of_mem _ hw)
    have hl : ∀ (g : String) (p : Int), resolverCalls [launch bound v g p, Event.getSGRules g] = [] := by
      intro g p
      cases bound <;> rfl
    cases hs : startsFrom prev (v :: rest) 0 with
    | true =>
      obtain ⟨ht, hc, _⟩ := processRows_cons_start resolve bound prev sg c v rest g p hs hg hp
      obtain ⟨h1, h2⟩ := ih (some v) g (c + 1) hport2 hres2
      rw [ht, hc, h2, List.flatten_cons, resolverCalls_append, List.length_append, h1,
        startCount_some]
      have : resolverCalls [Event.getSGfromIP v.dest (some g), launch bound v g p,
          Event.getSGRules g] = [v.dest] := by
        show v.dest :: resolverCalls [launch bound v g p, Event.getSGRules g] = [v.dest]
        rw [hl]
      rw [this]
      simp [startCount, hs]
      omega
    | false =>
      obtain ⟨ht, hc, _⟩ := processRows_cons_same resolve bound prev sg c v rest p hs hp
      obtain ⟨h1, h2⟩ := ih (some v) sg c hport2 hres2
      rw [ht, hc, h2, List.flatten_cons, resolverCalls_append, List.length_append, h1,
        startCount_some, hl]
      simp [startCount, hs]

theorem getSGRules_mem_iteration (bound : Bound) (v : data) (st : Bool) (a g g2 : String)
    (p : Int)
    (h : Event.getSGRules g2 ∈
      (if st = true then [Event.getSGfromIP a (some g)] else []) ++
        [launch bound v g p, Event.getSGRules g]) : g2 = g := by
  cases st <;> cases bound <;> simpa [launch] using h

theorem processRows_run (resolve : Nat → String → Option String) (bound : Bound)
    (rows : List data) (c : Nat)
    (hport : ∀ v ∈ rows, ∃ p, strconvParseInt v.port = some p)
    (hres : ∀ n, ∀ v ∈ rows, ∃ g, resolve n v.dest = some g)
    (j : Nat) (hstart : startsFrom none rows j = true) :
    ∀ (d : Nat) (hi : j + d < rows.length),
      (∀ m, j < m → m ≤ j + d → startsFrom none rows m = false) →
      ∃ g pj pi,
        (processRows resolve bound none "" c rows).trace[j]? =
          some [Event.getSGfromIP (rows.get ⟨j, by omega⟩).dest (some g),
                launch bound (rows.get ⟨j, by omega⟩) g pj, Event.getSGRules g] ∧
        (processRows resolve bound none "" c rows).trace[j + d]? =
          some ((if startsFrom none rows (j + d) = true then
                  [Event.getSGfromIP (rows.get ⟨j + d, hi⟩).dest (some g)] else []) ++
                [launch bound (rows.get ⟨j + d, hi⟩) g pi, Event.getSGRules g]) := by
  intro d
  induction d with
  | zero =>
    intro hi _
    obtain ⟨g, p, _, hshape, _⟩ := processRows_shape resolve bound rows none "" c hport hres j hi
    refine ⟨g, p, p, ?_, hshape⟩
    rw [hshape, if_pos hstart]
    rfl
  | succ d ih =>
    intro hi hsame
    have hi2 : j + d < rows.length := by omega
    obtain ⟨g, pj, pi, hj, hd⟩ := ih hi2 (fun m h1 h2 => hsame m h1 (by omega))
    obtain ⟨g2, p2, _, hshape, hprev⟩ :=
      processRows_shape resolve bound rows none "" c hport hres (j + (d + 1)) hi
    have hns : startsFrom none rows (j + (d + 1)) = false := hsame _ (by omega) (by omega)
    rcases hprev hns with ⟨h0, _⟩ | ⟨_, evs, hevs, hmem⟩
    · omega
    · have he : j + (d + 1) - 1 = j + d := by omega
      rw [he, hd] at hevs
      have hevs2 := Option.some.inj hevs
      rw [← hevs2] at hmem
      have hg := getSGRules_mem_iteration bound _ _ _ _ _ _ hmem
      subst hg
      exact ⟨g2, pj, p2, hj, hshape⟩

theorem processRows_cons_trace (resolve : Nat → String → Option String) (bound : Bound)
    (prev : Option data) (sg : String) (c : Nat) (v : data) (rest : List data) :
    ∃ hd tl, (processRows resolve bound prev sg c (v :: rest)).trace = hd :: tl ∧
      (∀ (ip : String) (r : Option String), Event.getSGfromIP ip r ∈ hd →
        ip = v.dest ∧ r = resolve c v.dest) ∧
      (tl = [] ∨ ∃ sg2 c2, tl = (processRows resolve bound (some v) sg2 c2 rest).trace) := by
  have hl : ∀ (ip : String) (r : Option String) (g : String) (p : Int),
      Event.getSGfromIP ip r ≠ launch bound v g p := by
    intro ip r g p
    cases bound <;> simp [launch]
  cases hs : startsFrom prev (v :: rest) 0 with
  | true =>
    cases hr : resolve c v.dest with
    | none =>
      refine ⟨[Event.getSGfromIP v.dest none], [], ?_, ?_, Or.inl rfl⟩
      · cases prev with
        | none => simp [processRows, hr]
        | some q =>
          have hq : (v.dest != q.dest) = true := by simpa [startsFrom] using hs
          simp [processRows, hq, hr]
      · intro ip r hm
        simp only [List.mem_singleton, Event.getSGfromIP.injEq] at hm
        exact ⟨hm.1, hm.2⟩
    | some g =>
      cases hp : strconvParseInt v.port with
      | none =>
        refine ⟨[Event.getSGfromIP v.dest (some g)], [], ?_, ?_, Or.inl rfl⟩
        · cases prev with
          | none => simp [processRows, hr, hp]
          | some q =>
            have hq : (v.dest != q.dest) = true := by simpa [startsFrom] using hs
            simp [processRows, hq, hr, hp]
        · intro ip r hm
          simp only [List.mem_singleton, Event.getSGfromIP.injEq] at hm
          exact ⟨hm.1, hm.2⟩
      | some port =>
        refine ⟨_, _, (processRows_cons_start resolve bound prev sg c v rest g port hs hr hp).1,
          ?_, Or.inr ⟨g, c + 1, rfl⟩⟩
        intro ip r hm
        simp only [List.mem_cons, Event.getSGfromIP.injEq, List.mem_singleton,
          List.not_mem_nil, or_false] at hm
        rcases hm with ⟨h1, h2⟩ | hm | hm
        · exact ⟨h1, h2⟩
        · exact absurd hm (hl ip r g port)
        · cases hm
  | false =>
    cases hp : strconvParseInt v.port with
    | none =>
      refine ⟨[], [], ?_, ?_, Or.inl rfl⟩
      · cases prev with
        | none => simp [startsFrom] at hs
        | some q =>
          have hq : (v.dest != q.dest) = false := by simpa [startsFrom] using hs
          simp [processRows, hq, hp]
      · intro ip r hm
        cases hm
    | some port =>
      refine ⟨_, _, (processRows_cons_same resolve bound prev sg c v rest port hs hp).1,
        ?_, Or.inr ⟨sg, c, rfl⟩⟩
      intro ip r hm
      simp only [List.mem_cons, List.mem_singleton, List.not_mem_nil, or_false] at hm
      rcases hm with hm | hm
      · exact absurd hm (hl ip r sg port)
      · cases hm

theorem processRows_event_resolved (resolve : Nat → String → Option String) (bound : Bound)
    (rows : List data) :
    ∀ (prev : Option data) (sg : String) (c : Nat) (evs : List Event),
      evs ∈ (processRows resolve bound prev sg c rows).trace →
      ∀ (ip : String) (r : Option String), Event.getSGfromIP ip r ∈ evs →
        ∃ n, resolve n ip = r := by
  induction rows with
  | nil => intro _ _ _ evs h; simp [processRows] at h
  | cons v rest ih =>
    intro prev sg c evs h ip r hmem
    obtain ⟨hd, tl, ht, hhd, htl⟩ := processRows_cons_trace resolve bound prev sg c v rest
    rw [ht, List.mem_cons] at h
    rcases h with h | h
    · subst h
      obtain ⟨h1, h2⟩ := hhd ip r hmem
      exact ⟨c, by rw [h1, h2]⟩
    · rcases htl with htl | ⟨sg2, c2, htl⟩
      · rw [htl] at h
        cases h
      · rw [htl] at h
        exact ih _ _ _ evs h ip r hmem

theorem orchestrate_completed (resolve : Nat → String → Option String)
    (inboundDATA outboundDATA : List data)
    (hportIn : ∀ v ∈ inboundDATA, ∃ p, strconvParseInt v.port = some p)
    (hportOut : ∀ v ∈ outboundDATA, ∃ p, strconvParseInt v.port = some p)
    (hresIn : ∀ n, ∀ v ∈ inboundDATA, ∃ g, resolve n v.dest = some g)
    (hresOut : ∀ n, ∀ v ∈ outboundDATA, ∃ g, resolve n v.dest = some g) :
    orchestrate resolve inboundDATA outboundDATA =
      { inboundTrace := (processRows resolve Bound.inb none "" 0 inboundDATA).trace,
        outboundTrace :=
          (processRows resolve Bound.outb none ""
            (processRows resolve Bound.inb none "" 0 inboundDATA).calls outboundDATA).trace,
        exit := Exit.collecting } := by
  have h1 := (processRows_completes resolve Bound.inb inboundDATA none "" 0 hportIn hresIn).1
  have h2 := (processRows_completes resolve Bound.outb outboundDATA none ""
    (processRows resolve Bound.inb none "" 0 inboundDATA).calls hportOut hresOut).1
  unfold orchestrate
  simp only [h1, h2]

theorem processRows_loop_facts (resolve : Nat → String → Option String) (bound : Bound)
    (rows : List data) (c : Nat)
    (hport : ∀ v ∈ rows, ∃ p, strconvParseInt v.port = some p)
    (hres : ∀ n, ∀ v ∈ rows, ∃ g, resolve n v.dest = some g) :
    (processRows resolve bound none "" c rows).trace.length = rows.length ∧
    (∀ (i : Nat) (hi : i < rows.length), ∃ g p,
      strconvParseInt (rows.get ⟨i, hi⟩).port = some p ∧
      (processRows resolve bound none "" c rows).trace[i]? =
        some ((if startsRun rows i = true then
                [Event.getSGfromIP (rows.get ⟨i, hi⟩).dest (some g)] else []) ++
              [launch bound (rows.get ⟨i, hi⟩) g p, Event.getSGRules g])) ∧
    (∀ (j i : Nat) (hj : j ≤ i) (hi : i < rows.length),
      startsRun rows j = true →
      (∀ m, j < m → m ≤ i → startsRun rows m = false) →
      ∃ g n pj pi,
        resolve n (rows.get ⟨j, Nat.lt_of_le_of_lt hj hi⟩).dest = some g ∧
        (processRows resolve bound none "" c rows).trace[j]? =
          some [Event.getSGfromIP (rows.get ⟨j, Nat.lt_of_le_of_lt hj hi⟩).dest (some g),
                launch bound (rows.get ⟨j, Nat.lt_of_le_of_lt hj hi⟩) g pj,
                Event.getSGRules g] ∧
        ∃ evs, (processRows resolve bound none "" c rows).trace[i]? = some evs ∧
          launch bound (rows.get ⟨i, hi⟩) g pi ∈ evs ∧ Event.getSGRules g ∈ evs) ∧
    (resolverCalls (processRows resolve bound none "" c rows).trace.flatten).length =
      (destRuns rows).length := by
  obtain ⟨_, hlen⟩ := processRows_completes resolve bound rows none "" c hport hres
  refine ⟨hlen, ?_, ?_, ?_⟩
  · intro i hi
    obtain ⟨g, p, hp, hshape, _⟩ := processRows_shape resolve bound rows none "" c hport hres i hi
    rw [startsRun_eq_startsFrom]
    exact ⟨g, p, hp, hshape⟩
  · intro j i hj hi hstart hsame
    rw [startsRun_eq_startsFrom] at hstart
    obtain ⟨d, rfl⟩ : ∃ d, i = j + d := ⟨i - j, by omega⟩
    obtain ⟨g, pj, pi, h1, h2⟩ := processRows_run resolve bound rows c hport hres j hstart d hi
      (fun m hm1 hm2 => by rw [← startsRun_eq_startsFrom]; exact hsame m hm1 hm2)
    obtain ⟨n, hn⟩ := processRows_event_resolved resolve bound rows none "" c _
      (List.getElem?_mem h1) _ _ (List.mem_cons_self _ _)
    exact ⟨g, n, pj, pi, hn, h1, _, h2, by simp, by simp⟩
  · cases rows with
    | nil => simp [processRows, resolverCalls, destRuns]
    | cons v rest =>
      rw [(processRows_calls resolve bound (v :: rest) none "" c hport hres).1, destRuns_length]
      simp [startCount, startsFrom]

/-! ## Theorems -/

/-- C1: for every source `ip[i]` handed to either authorizer variant, in the
single-source branch as well as in the multi-source branch, the range built at
position `i` has `CidrIp` equal to the source followed by `/32` when the
source holds no slash, and equal to the source itself when it holds one. -/
theorem C1_cidr_normalized (desc : String) (ip : List String) (i : Nat)
    (hi : i < ip.length) :
    ∃ ins outs, inboundIps desc ip = some ins ∧ outboundIps desc ip = some outs ∧
      ('/' ∉ (ip.get ⟨i, hi⟩).data →
        ins[i]?.map IpRange.CidrIp = some (ip.get ⟨i, hi⟩ ++ "/32") ∧
        outs[i]?.map IpRange.CidrIp = some (ip.get ⟨i, hi⟩ ++ "/32")) ∧
      ('/' ∈ (ip.get ⟨i, hi⟩).data →
        ins[i]?.map IpRange.CidrIp = some (ip.get ⟨i, hi⟩) ∧
        outs[i]?.map IpRange.CidrIp = some (ip.get ⟨i, hi⟩)) := by
  have hne : ip ≠ [] := by
    intro h
    rw [h] at hi
    exact absurd hi (by simp)
  refine ⟨ip.map (specRange desc), ip.map (specRange desc), inboundIps_eq desc ip hne, ?_, ?_, ?_⟩
  · rw [outboundIps_eq_inboundIps]
    exact inboundIps_eq desc ip hne
  · intro hs
    simp [List.getElem?_map, List.getElem?_eq_getElem hi, specRange]
    intro hc
    exact absurd hc hs
  · intro hs
    simp [List.getElem?_map, List.getElem?_eq_getElem hi, specRange]
    intro hc
    exact absurd hs hc

/-- Witness of C1 on the sources `1.2.3.4` and `5.6.7.0/24`, at position 0. -/
theorem C1_cidr_normalized_witness :
    ∃ ins outs, inboundIps "web" ["1.2.3.4", "5.6.7.0/24"] = some ins ∧
      outboundIps "web" ["1.2.3.4", "5.6.7.0/24"] = some outs ∧
      ('/' ∉ ("1.2.3.4" : String).data →
        ins[0]?.map IpRange.CidrIp = some ("1.2.3.4" ++ "/32") ∧
        outs[0]?.map IpRange.CidrIp = some ("1.2.3.4" ++ "/32")) ∧
      ('/' ∈ ("1.2.3.4" : String).data →
        ins[0]?.map IpRange.CidrIp = some "1.2.3.4" ∧
        outs[0]?.map IpRange.CidrIp = some "1.2.3.4") :=
  C1_cidr_normalized "web" ["1.2.3.4", "5.6.7.0/24"] 0 (by decide)

/-- C2: for a non-empty source list each authorizer variant builds a request
with the given group ID and exactly one permission, with the given protocol,
from-port and to-port both equal to `port`, and one range per source, in the
order of the sources, each with the given description; both variants build
the same permissions; the sources cell `1.2.3.4 5.6.7.0/24` with port text
`443` gives the two ranges `1.2.3.4/32` and `5.6.7.0/24` on port 443. -/
theorem C2_request_built (protocol sgID desc : String) (ip : List String) (port : Int)
    (hne : ip ≠ []) :
    (∃ ranges : List IpRange,
      ranges.length = ip.length ∧
      (∀ (i : Nat) (hi : i < ip.length),
        ranges[i]? = some
          { CidrIp := if '/' ∈ (ip.get ⟨i, hi⟩).data then ip.get ⟨i, hi⟩
                      else ip.get ⟨i, hi⟩ ++ "/32",
            Description := desc }) ∧
      createInboundSGRule protocol sgID desc ip port =
        some { IpPermissions := [{ IpProtocol := protocol, FromPort := port,
                                   IpRanges := ranges, ToPort := port }],
               GroupId := sgID } ∧
      createOutBoundSGRule protocol sgID desc ip port =
        some { IpPermissions := [{ IpProtocol := protocol, FromPort := port,
                                   IpRanges := ranges, ToPort := port }],
               GroupId := sgID }) ∧
    (createInboundSGRule protocol sgID desc ip port).map
        AuthorizeSecurityGroupIngressInput.IpPermissions =
      (createOutBoundSGRule protocol sgID desc ip port).map
        AuthorizeSecurityGroupEgressInput.IpPermissions ∧
    strconvParseInt "443" = some 443 ∧
    createInboundSGRule protocol sgID desc
        (stringsSplit (stringsTrimSpace "1.2.3.4 5.6.7.0/24") ' ') 443 =
      some { IpPermissions := [{ IpProtocol := protocol, FromPort := 443,
                                 IpRanges := [{ CidrIp := "1.2.3.4/32", Description := desc },
                                              { CidrIp := "5.6.7.0/24", Description := desc }],
                                 ToPort := 443 }],
             GroupId := sgID } ∧
    createOutBoundSGRule protocol sgID desc
        (stringsSplit (stringsTrimSpace "1.2.3.4 5.6.7.0/24") ' ') 443 =
      some { IpPermissions := [{ IpProtocol := protocol, FromPort := 443,
                                 IpRanges := [{ CidrIp := "1.2.3.4/32", Description := desc },
                                              { CidrIp := "5.6.7.0/24", Description := desc }],
                                 ToPort := 443 }],
             GroupId := sgID } := by
  have hin := inboundIps_eq desc ip hne
  have hout : outboundIps desc ip = some (ip.map (specRange desc)) := by
    rw [outboundIps_eq_inboundIps]
    exact hin
  have hcell : stringsSplit (stringsTrimSpace "1.2.3.4 5.6.7.0/24") ' ' =
      ["1.2.3.4", "5.6.7.0/24"] := by decide
  have hex := inboundIps_eq desc ["1.2.3.4", "5.6.7.0/24"] (by simp)
  have hex2 : outboundIps desc ["1.2.3.4", "5.6.7.0/24"] = _ := hex
  have h1 : specRange desc "1.2.3.4" = { CidrIp := "1.2.3.4/32", Description := desc } := by
    unfold specRange
    rw [if_neg (by decide)]
    rfl
  have h2 : specRange desc "5.6.7.0/24" = { CidrIp := "5.6.7.0/24", Description := desc } := by
    unfold specRange
    rw [if_pos (by decide)]
  refine ⟨⟨ip.map (specRange desc), by simp, ?_, ?_, ?_⟩, ?_, by decide, ?_, ?_⟩
  · intro i hi
    simp [List.getElem?_map, List.getElem?_eq_getElem hi, specRange]
  · simp [createInboundSGRule, hin]
  · simp [createOutBoundSGRule, hout]
  · simp [createInboundSGRule, createOutBoundSGRule, hin, hout]
  · rw [hcell]
    simp [createInboundSGRule, hex, h1, h2]
  · rw [hcell]
    simp [createOutBoundSGRule, hex2, h1, h2]

/-- Witness of C2 on the sources `1.2.3.4` and `5.6.7.0/24` with port 443. -/
theorem C2_request_built_witness :
    (["1.2.3.4", "5.6.7.0/24"] : List String) ≠ [] ∧
    createInboundSGRule "tcp" "sg-111" "web" ["1.2.3.4", "5.6.7.0/24"] 443 =
      some { IpPermissions := [{ IpProtocol := "tcp", FromPort := 443,
                                 IpRanges := [{ CidrIp := "1.2.3.4/32", Description := "web" },
                                              { CidrIp := "5.6.7.0/24", Description := "web" }],
                                 ToPort := 443 }],
             GroupId := "sg-111" } :=
  ⟨by decide,
   (C2_request_built "tcp" "sg-111" "web" ["1.2.3.4", "5.6.7.0/24"] 443 (by decide)).2.2.2.1⟩

/-- C3: the first record handed to the bucketing loop, the header, adds nothing
to either list: the result is the same with any other header in its place, a
file of a header alone gives two empty lists whatever the header reads, and
every record of either list is the record of a row after the header. -/
theorem C3_header_excluded (hdr : List String) (rest : Records) :
    (∀ other : List String, bucket (hdr :: rest) = bucket (other :: rest)) ∧
    bucket [hdr] = some ([], []) ∧
    (∀ inb outb, bucket (hdr :: rest) = some (inb, outb) →
      inb = (rest.filter (bucketedAs inbound)).map specRecord ∧
      outb = (rest.filter (bucketedAs outbound)).map specRecord) := by
  refine ⟨?_, ?_, ?_⟩
  · intro other
    rw [bucket_cons, bucket_cons]
  · rw [bucket_cons]
    simp [sixColumns, specBuckets]
  · intro inb outb h
    rw [bucket_cons] at h
    by_cases h6 : sixColumns rest = true
    · rw [if_pos h6] at h
      simp only [specBuckets, Option.some.injEq, Prod.mk.injEq] at h
      exact ⟨h.1.symm, h.2.symm⟩
    · rw [if_neg h6] at h
      exact absurd h (by simp)

/-- Witness of C3: a header whose direction column reads `inbound`, followed by
one outbound row. -/
theorem C3_header_excluded_witness :
    bucket [["d", "p", "x", "1", "s", "inbound"]] = some ([], []) ∧
    ([] : List data) =
      ([["10.0.0.5", "tcp", "web", "443", "1.2.3.4", "outbound"]].filter
        (bucketedAs inbound)).map specRecord ∧
    [(⟨["1.2.3.4"], "10.0.0.5", "tcp", "web", "443", "outbound"⟩ : data)] =
      ([["10.0.0.5", "tcp", "web", "443", "1.2.3.4", "outbound"]].filter
        (bucketedAs outbound)).map specRecord :=
  ⟨(C3_header_excluded ["d", "p", "x", "1", "s", "inbound"] []).2.1,
   (C3_header_excluded ["d", "p", "x", "1", "s", "inbound"]
      [["10.0.0.5", "tcp", "web", "443", "1.2.3.4", "outbound"]]).2.2 []
      [⟨["1.2.3.4"], "10.0.0.5", "tcp", "web", "443", "outbound"⟩] (by decide)⟩

/-- C4 as stated fails: a data row whose direction column is written with a
leading blank, so that it is neither the string `inbound` nor the string
`outbound`, is still added to the inbound list. -/
theorem C4_counterexample :
    ¬ (∀ (pre : Records) (row : List String) (post : Records) (row5 : String),
        pre ≠ [] → row[5]? = some row5 → row5 ≠ inbound → row5 ≠ outbound →
        bucket (pre ++ row :: post) = bucket (pre ++ post)) := by
  intro h
  have h1 := h [["h"]] ["10.0.0.5", "tcp", "web", "443", "1.2.3.4", " inbound"] []
    " inbound" (by decide) (by decide) (by decide) (by decide)
  revert h1
  decide

/-- C4, amended: a data row whose direction column, once leading and trailing
white space is trimmed, is neither `inbound` nor `outbound` adds no record to
either list: the loader gives the same result with the row removed. -/
theorem C4_other_direction_dropped (pre : Records) (row : List String) (post : Records)
    (row5 : String) (hpre : pre ≠ []) (h5 : row[5]? = some row5)
    (hin : stringsTrimSpace row5 ≠ inbound) (hout : stringsTrimSpace row5 ≠ outbound) :
    bucket (pre ++ row :: post) = bucket (pre ++ post) := by
  obtain ⟨hdr, pre1, rfl⟩ := List.exists_cons_of_ne_nil hpre
  have hlen : 6 ≤ row.length := by
    have := (List.getElem?_eq_some_iff.1 h5).1
    omega
  rw [List.cons_append, List.cons_append, bucket_cons, bucket_cons]
  have hs : sixColumns (pre1 ++ row :: post) = sixColumns (pre1 ++ post) := by
    simp [sixColumns, hlen]
  have hb : specBuckets (pre1 ++ row :: post) = specBuckets (pre1 ++ post) := by
    simp [specBuckets, List.filter_cons, bucketedAs, h5, hin, hout]
  rw [hs, hb]

/-- Witness of C4, amended: a row whose direction column reads `both`. -/
theorem C4_other_direction_dropped_witness :
    bucket ([["h"]] ++ ["10.0.0.5", "tcp", "web", "443", "1.2.3.4", "both"] :: []) =
      bucket ([["h"]] ++ []) :=
  C4_other_direction_dropped [["h"]] ["10.0.0.5", "tcp", "web", "443", "1.2.3.4", "both"] []
    "both" (by decide) (by decide) (by decide) (by decide)

/-- C5: on records whose data rows all have six columns the loader returns
the data rows bucketed as inbound and those bucketed as outbound, each list in
input row order (with a shorter data row it panics and returns nothing); no
row is bucketed both ways and no record is in both lists; each record has
`dest`, `protocol`, `description` and `port` equal to columns 0 to 3 and
`source` equal to column 4 trimmed and split on single spaces. -/
theorem C5_buckets_in_order (allRecords : Records) :
    bucket allRecords =
      (if sixColumns allRecords.tail then
        some ((allRecords.tail.filter (bucketedAs inbound)).map specRecord,
              (allRecords.tail.filter (bucketedAs outbound)).map specRecord)
      else none) ∧
    (∀ row : List String, ¬ (bucketedAs inbound row = true ∧ bucketedAs outbound row = true)) ∧
    (∀ inb outb, bucket allRecords = some (inb, outb) → ∀ d, d ∈ inb → d ∉ outb) ∧
    (∀ (row0 row1 row2 row3 row4 row5 : String) (more : List String),
      specRecord (row0 :: row1 :: row2 :: row3 :: row4 :: row5 :: more) =
        { dest := row0, protocol := row1, description := row2, port := row3,
          source := stringsSplit (stringsTrimSpace row4) ' ',
          direction := stringsTrimSpace row5 }) := by
  have hio : inbound ≠ outbound := by decide
  have hmain : bucket allRecords =
      (if sixColumns allRecords.tail then some (specBuckets allRecords.tail) else none) := by
    cases allRecords with
    | nil => simp [bucket, bucketLoop, sixColumns, specBuckets]
    | cons hdr rest => exact bucket_cons hdr rest
  refine ⟨hmain, ?_, ?_, ?_⟩
  · intro row h
    simp only [bucketedAs, beq_iff_eq] at h
    exact hio (h.1.symm.trans h.2)
  · intro inb outb h d hd hd2
    rw [hmain] at h
    by_cases h6 : sixColumns allRecords.tail = true
    · rw [if_pos h6] at h
      simp only [specBuckets, Option.some.injEq, Prod.mk.injEq] at h
      rw [← h.1] at hd
      rw [← h.2] at hd2
      simp only [List.mem_map, List.mem_filter, bucketedAs, beq_iff_eq] at hd hd2
      obtain ⟨r1, ⟨_, hr1⟩, rfl⟩ := hd
      obtain ⟨r2, ⟨_, hr2⟩, he⟩ := hd2
      have hdir : (specRecord r2).direction = (specRecord r1).direction := by rw [he]
      simp only [specRecord] at hdir
      rw [hr1, hr2] at hdir
      exact hio hdir.symm
    · rw [if_neg h6] at h
      exact absurd h (by simp)
  · intros
    rfl

/-- Witness of C5: a header, an inbound row, a row to drop and an outbound row. -/
theorem C5_buckets_in_order_witness :
    bucket [["h"], ["10.0.0.5", "tcp", "web", "443", "1.2.3.4 5.6.7.0/24", "inbound"],
            ["10.0.0.9", "udp", "x", "53", "9.9.9.9", "both"],
            ["10.0.0.7", "tcp", "db", "5432", " 10.1.0.0/16 ", "outbound "]] =
      some ([⟨["1.2.3.4", "5.6.7.0/24"], "10.0.0.5", "tcp", "web", "443", "inbound"⟩],
            [⟨["10.1.0.0/16"], "10.0.0.7", "tcp", "db", "5432", "outbound"⟩]) :=
  (C5_buckets_in_order [["h"],
      ["10.0.0.5", "tcp", "web", "443", "1.2.3.4 5.6.7.0/24", "inbound"],
      ["10.0.0.9", "udp", "x", "53", "9.9.9.9", "both"],
      ["10.0.0.7", "tcp", "db", "5432", " 10.1.0.0/16 ", "outbound "]]).1.trans (by decide)

/-- C10: every record of either list the loader returns has a non-empty source
list, on which neither authorizer variant panics at `ip[0]`; for a sources
cell that is empty or all white space the source list is the single empty
string and the single range built is `/32`. -/
theorem C10_sources_nonempty (allRecords : Records) (inb outb : List data)
    (h : bucket allRecords = some (inb, outb)) :
    (∀ d, d ∈ inb ++ outb →
      d.source ≠ [] ∧
      ∀ (protocol sgID : String) (port : Int),
        (createInboundSGRule protocol sgID d.description d.source port).isSome = true ∧
        (createOutBoundSGRule protocol sgID d.description d.source port).isSome = true) ∧
    (∀ cell : String, (∀ c ∈ cell.data, isSpace c = true) →
      stringsSplit (stringsTrimSpace cell) ' ' = [""] ∧
      ∀ desc : String,
        inboundIps desc (stringsSplit (stringsTrimSpace cell) ' ') =
          some [{ CidrIp := "/32", Description := desc }] ∧
        outboundIps desc (stringsSplit (stringsTrimSpace cell) ' ') =
          some [{ CidrIp := "/32", Description := desc }]) := by
  constructor
  · intro d hd
    have hsrc : d.source ≠ [] := by
      have hmain := (show bucket allRecords =
          (if sixColumns allRecords.tail then some (specBuckets allRecords.tail) else none) from by
        cases allRecords with
        | nil => simp [bucket, bucketLoop, sixColumns, specBuckets]
        | cons hdr rest => exact bucket_cons hdr rest)
      rw [hmain] at h
      by_cases h6 : sixColumns allRecords.tail = true
      · rw [if_pos h6] at h
        simp only [specBuckets, Option.some.injEq, Prod.mk.injEq] at h
        rw [← h.1, ← h.2] at hd
        simp only [List.mem_append, List.mem_map] at hd
        rcases hd with ⟨r, _, rfl⟩ | ⟨r, _, rfl⟩
        · exact splitChars_ne_nil _ _ _
        · exact splitChars_ne_nil _ _ _
      · rw [if_neg h6] at h
        exact absurd h (by simp)
    refine ⟨hsrc, ?_⟩
    intro protocol sgID port
    have hin := inboundIps_eq d.description d.source hsrc
    have hout : outboundIps d.description d.source = _ := hin
    simp [createInboundSGRule, createOutBoundSGRule, hin, hout]
  · intro cell hcell
    have htrim : stringsTrimSpace cell = "" := by
      unfold stringsTrimSpace
      have hd : cell.data.dropWhile isSpace = [] := by
        rw [List.dropWhile_eq_nil_iff]
        exact hcell
      rw [hd]
      rfl
    rw [htrim]
    refine ⟨by decide, ?_⟩
    intro desc
    have hs : stringsSplit "" ' ' = [""] := by decide
    rw [hs]
    have hin := inboundIps_eq desc [""] (by simp)
    have hout : outboundIps desc [""] = _ := hin
    have hr : specRange desc "" = { CidrIp := "/32", Description := desc } := by
      unfold specRange
      rw [if_neg (by decide)]
      rfl
    rw [hin, hout]
    simp [hr]

/-- Witness of C10: a file whose only data row has a blank sources cell. -/
theorem C10_sources_nonempty_witness :
    bucket [["h"], ["10.0.0.5", "tcp", "web", "443", "  ", "inbound"]] =
      some ([⟨[""], "10.0.0.5", "tcp", "web", "443", "inbound"⟩], []) ∧
    createInboundSGRule "tcp" "sg-111" "web" [""] 443 =
      some ⟨[⟨"tcp", 443, [⟨"/32", "web"⟩], 443⟩], "sg-111"⟩ ∧
    (⟨[""], "10.0.0.5", "tcp", "web", "443", "inbound"⟩ : data).source ≠ [] :=
  ⟨by decide, by decide,
   ((C10_sources_nonempty [["h"], ["10.0.0.5", "tcp", "web", "443", "  ", "inbound"]]
      [⟨[""], "10.0.0.5", "tcp", "web", "443", "inbound"⟩] [] (by decide)).1
      ⟨[""], "10.0.0.5", "tcp", "web", "443", "inbound"⟩ (by decide)).1⟩

/-- C6 as stated fails: the ports parse, the destinations A, B form two
maximal runs, but the resolver panics at its first call: it is called once,
not twice, and no record is authorized. -/
theorem C6_counterexample :
    ¬ (∀ (resolve : Nat → String → Option String) (bound : Bound) (rows : List data),
        (∀ v ∈ rows, ∃ p, strconvParseInt v.port = some p) →
        (resolverCalls (processRows resolve bound none "" 0 rows).trace.flatten).length =
          (destRuns rows).length) ∧
    orchestrate (fun _ _ => none)
        [⟨["1.1.1.1"], "A", "tcp", "x", "80", "inbound"⟩,
         ⟨["1.1.1.1"], "B", "tcp", "x", "80", "inbound"⟩] [] =
      { inboundTrace := [[Event.getSGfromIP "A" none]], outboundTrace := [],
        exit := Exit.crashed } := by
  refine ⟨?_, by decide⟩
  intro h
  have h1 := h (fun _ _ => none) Bound.inb
    [⟨["1.1.1.1"], "A", "tcp", "x", "80", "inbound"⟩,
     ⟨["1.1.1.1"], "B", "tcp", "x", "80", "inbound"⟩]
    (by
      intro v hv
      simp only [List.mem_cons, List.mem_singleton, List.not_mem_nil, or_false] at hv
      rcases hv with rfl | rfl
      · exact ⟨80, by decide⟩
      · exact ⟨80, by decide⟩)
  revert h1
  decide

/-- C6, amended: when every port of the inbound and of the outbound list
parses and every resolver call returns a group ID, `main` runs both loops to
their end, one iteration per record.  In the inbound loop the resolver is
called in iteration `i` exactly when record `i` is the first one or its `dest`
differs from the one before, and `createInboundSGRule` and `getSGRules` are
launched with the group ID in use; every record up to the next such record is
authorized against the group ID the resolver returned at the start of its
run.  The same holds in the outbound loop with `createOutBoundSGRule`.  In each
loop the number of resolver calls is the number of maximal runs of equal
`dest`; the destinations A, B, A cause three calls. -/
theorem C6_resolver_once_per_run (resolve : Nat → String → Option String)
    (inboundDATA outboundDATA : List data)
    (hportIn : ∀ v ∈ inboundDATA, ∃ p, strconvParseInt v.port = some p)
    (hportOut : ∀ v ∈ outboundDATA, ∃ p, strconvParseInt v.port = some p)
    (hresIn : ∀ n, ∀ v ∈ inboundDATA, ∃ g, resolve n v.dest = some g)
    (hresOut : ∀ n, ∀ v ∈ outboundDATA, ∃ g, resolve n v.dest = some g) :
    (orchestrate resolve inboundDATA outboundDATA).exit = Exit.collecting ∧
    (orchestrate resolve inboundDATA outboundDATA).inboundTrace.length = inboundDATA.length ∧
    (orchestrate resolve inboundDATA outboundDATA).outboundTrace.length =
      outboundDATA.length ∧
    (∀ (i : Nat) (hi : i < inboundDATA.length), ∃ g p,
      strconvParseInt (inboundDATA.get ⟨i, hi⟩).port = some p ∧
      (orchestrate resolve inboundDATA outboundDATA).inboundTrace[i]? =
        some ((if startsRun inboundDATA i = true then
                [Event.getSGfromIP (inboundDATA.get ⟨i, hi⟩).dest (some g)] else []) ++
              [Event.createInboundSGRule (inboundDATA.get ⟨i, hi⟩).protocol g
                 (inboundDATA.get ⟨i, hi⟩).description (inboundDATA.get ⟨i, hi⟩).source p,
               Event.getSGRules g])) ∧
    (∀ (i : Nat) (hi : i < outboundDATA.length), ∃ g p,
      strconvParseInt (outboundDATA.get ⟨i, hi⟩).port = some p ∧
      (orchestrate resolve inboundDATA outboundDATA).outboundTrace[i]? =
        some ((if startsRun outboundDATA i = true then
                [Event.getSGfromIP (outboundDATA.get ⟨i, hi⟩).dest (some g)] else []) ++
              [Event.createOutBoundSGRule (outboundDATA.get ⟨i, hi⟩).protocol g
                 (outboundDATA.get ⟨i, hi⟩).description (outboundDATA.get ⟨i, hi⟩).source p,
               Event.getSGRules g])) ∧
    (∀ (j i : Nat) (hj : j ≤ i) (hi : i < inboundDATA.length),
      startsRun inboundDATA j = true →
      (∀ m, j < m → m ≤ i → startsRun inboundDATA m = false) →
      ∃ g n pj pi,
        resolve n (inboundDATA.get ⟨j, Nat.lt_of_le_of_lt hj hi⟩).dest = some g ∧
        (orchestrate resolve inboundDATA outboundDATA).inboundTrace[j]? =
          some [Event.getSGfromIP (inboundDATA.get ⟨j, Nat.lt_of_le_of_lt hj hi⟩).dest (some g),
                Event.createInboundSGRule
                  (inboundDATA.get ⟨j, Nat.lt_of_le_of_lt hj hi⟩).protocol g
                  (inboundDATA.get ⟨j, Nat.lt_of_le_of_lt hj hi⟩).description
                  (inboundDATA.get ⟨j, Nat.lt_of_le_of_lt hj hi⟩).source pj,
                Event.getSGRules g] ∧
        ∃ evs, (orchestrate resolve inboundDATA outboundDATA).inboundTrace[i]? = some evs ∧
          Event.createInboundSGRule (inboundDATA.get ⟨i, hi⟩).protocol g
            (inboundDATA.get ⟨i, hi⟩).description (inboundDATA.get ⟨i, hi⟩).source pi ∈ evs ∧
          Event.getSGRules g ∈ evs) ∧
    (∀ (j i : Nat) (hj : j ≤ i) (hi : i < outboundDATA.length),
      startsRun outboundDATA j = true →
      (∀ m, j < m → m ≤ i → startsRun outboundDATA m = false) →
      ∃ g n pj pi,
        resolve n (outboundDATA.get ⟨j, Nat.lt_of_le_of_lt hj hi⟩).dest = some g ∧
        (orchestrate resolve inboundDATA outboundDATA).outboundTrace[j]? =
          some [Event.getSGfromIP (outboundDATA.get ⟨j, Nat.lt_of_le_of_lt hj hi⟩).dest (some g),
                Event.createOutBoundSGRule
                  (outboundDATA.get ⟨j, Nat.lt_of_le_of_lt hj hi⟩).protocol g
                  (outboundDATA.get ⟨j, Nat.lt_of_le_of_lt hj hi⟩).description
                  (outboundDATA.get ⟨j, Nat.lt_of_le_of_lt hj hi⟩).source pj,
                Event.getSGRules g] ∧
        ∃ evs, (orchestrate resolve inboundDATA outboundDATA).outboundTrace[i]? = some evs ∧
          Event.createOutBoundSGRule (outboundDATA.get ⟨i, hi⟩).protocol g
            (outboundDATA.get ⟨i, hi⟩).description (outboundDATA.get ⟨i, hi⟩).source pi ∈ evs ∧
          Event.getSGRules g ∈ evs) ∧
    (resolverCalls (orchestrate resolve inboundDATA outboundDATA).inboundTrace.flatten).length =
      (destRuns inboundDATA).length ∧
    (resolverCalls (orchestrate resolve inboundDATA outboundDATA).outboundTrace.flatten).length =
      (destRuns outboundDATA).length ∧
    orchestrate (fun n _ => some (toString n))
        [⟨["1.1.1.1"], "A", "tcp", "x", "80", "inbound"⟩,
         ⟨["1.1.1.1"], "B", "tcp", "x", "80", "inbound"⟩,
         ⟨["1.1.1.1"], "A", "tcp", "x", "80", "inbound"⟩] [] =
      { inboundTrace :=
          [[Event.getSGfromIP "A" (some "0"),
            Event.createInboundSGRule "tcp" "0" "x" ["1.1.1.1"] 80, Event.getSGRules "0"],
           [Event.getSGfromIP "B" (some "1"),
            Event.createInboundSGRule "tcp" "1" "x" ["1.1.1.1"] 80, Event.getSGRules "1"],
           [Event.getSGfromIP "A" (some "2"),
            Event.createInboundSGRule "tcp" "2" "x" ["1.1.1.1"] 80, Event.getSGRules "2"]],
        outboundTrace := [],
        exit := Exit.collecting } := by
  obtain ⟨hl1, hr1, hw1, hc1⟩ :=
    processRows_loop_facts resolve Bound.inb inboundDATA 0 hportIn hresIn
  obtain ⟨hl2, hr2, hw2, hc2⟩ :=
    processRows_loop_facts resolve Bound.outb outboundDATA
      (processRows resolve Bound.inb none "" 0 inboundDATA).calls hportOut hresOut
  rw [orchestrate_completed resolve inboundDATA outboundDATA hportIn hportOut hresIn hresOut]
  exact ⟨rfl, hl1, hl2, hr1, hr2, hw1, hw2, hc1, hc2, by decide⟩

/-- Witness of C6, amended: inbound destinations A, A, B and outbound
destinations C, C with a resolver that returns the number of the call. -/
theorem C6_resolver_once_per_run_witness :
    orchestrate (fun n _ => some (toString n))
        [⟨["1.1.1.1"], "A", "tcp", "x", "80", "inbound"⟩,
         ⟨["1.1.1.1"], "A", "tcp", "y", "81", "inbound"⟩,
         ⟨["1.1.1.1"], "B", "tcp", "z", "82", "inbound"⟩]
        [⟨["2.2.2.2"], "C", "udp", "u", "53", "outbound"⟩,
         ⟨["3.3.3.3"], "C", "udp", "w", "54", "outbound"⟩] =
      { inboundTrace :=
          [[Event.getSGfromIP "A" (some "0"),
            Event.createInboundSGRule "tcp" "0" "x" ["1.1.1.1"] 80, Event.getSGRules "0"],
           [Event.createInboundSGRule "tcp" "0" "y" ["1.1.1.1"] 81, Event.getSGRules "0"],
           [Event.getSGfromIP "B" (some "1"),
            Event.createInboundSGRule "tcp" "1" "z" ["1.1.1.1"] 82, Event.getSGRules "1"]],
        outboundTrace :=
          [[Event.getSGfromIP "C" (some "2"),
            Event.createOutBoundSGRule "udp" "2" "u" ["2.2.2.2"] 53, Event.getSGRules "2"],
           [Event.createOutBoundSGRule "udp" "2" "w" ["3.3.3.3"] 54, Event.getSGRules "2"]],
        exit := Exit.collecting } ∧
    (orchestrate (fun n _ => some (toString n))
        [⟨["1.1.1.1"], "A", "tcp", "x", "80", "inbound"⟩,
         ⟨["1.1.1.1"], "A", "tcp", "y", "81", "inbound"⟩,
         ⟨["1.1.1.1"], "B", "tcp", "z", "82", "inbound"⟩]
        [⟨["2.2.2.2"], "C", "udp", "u", "53", "outbound"⟩,
         ⟨["3.3.3.3"], "C", "udp", "w", "54", "outbound"⟩]).exit = Exit.collecting :=
  ⟨by decide,
   (C6_resolver_once_per_run (fun n _ => some (toString n))
      [⟨["1.1.1.1"], "A", "tcp", "x", "80", "inbound"⟩,
       ⟨["1.1.1.1"], "A", "tcp", "y", "81", "inbound"⟩,
       ⟨["1.1.1.1"], "B", "tcp", "z", "82", "inbound"⟩]
      [⟨["2.2.2.2"], "C", "udp", "u", "53", "outbound"⟩,
       ⟨["3.3.3.3"], "C", "udp", "w", "54", "outbound"⟩]
      (by
        intro v hv
        simp only [List.mem_cons, List.mem_singleton, List.not_mem_nil, or_false] at hv
        rcases hv with rfl | rfl | rfl
        · exact ⟨80, by decide⟩
        · exact ⟨81, by decide⟩
        · exact ⟨82, by decide⟩)
      (by
        intro v hv
        simp only [List.mem_cons, List.mem_singleton, List.not_mem_nil, or_false] at hv
        rcases hv with rfl | rfl
        · exact ⟨53, by decide⟩
        · exact ⟨54, by decide⟩)
      (fun n v _ => ⟨toString n, rfl⟩) (fun n v _ => ⟨toString n, rfl⟩)).1⟩

/-- C7, the code at a failing input: the first inbound row has the port text
`https`; the resolver is called for it, then `main` panics, its deferred
`errRecover` catches the panic and `main` returns: the second inbound row
and the outbound row, whose ports parse, get no task launched. -/
theorem C7_bad_port_ends_run :
    orchestrate (fun _ _ => some "sg-111")
        [⟨["1.2.3.4"], "10.0.0.5", "tcp", "web", "https", "inbound"⟩,
         ⟨["1.2.3.4"], "10.0.0.6", "tcp", "web", "443", "inbound"⟩]
        [⟨["5.6.7.8"], "10.0.0.7", "tcp", "db", "5432", "outbound"⟩] =
      { inboundTrace := [[Event.getSGfromIP "10.0.0.5" (some "sg-111")]],
        outboundTrace := [],
        exit := Exit.recovered Panic.strconvParseInt } ∧
    orchestrate (fun _ _ => some "sg-111")
        [⟨["1.2.3.4"], "10.0.0.6", "tcp", "web", "443", "inbound"⟩]
        [⟨["5.6.7.8"], "10.0.0.7", "tcp", "db", "5432", "outbound"⟩] =
      { inboundTrace := [[Event.getSGfromIP "10.0.0.6" (some "sg-111"),
                          Event.createInboundSGRule "tcp" "sg-111" "web" ["1.2.3.4"] 443,
                          Event.getSGRules "sg-111"]],
        outboundTrace := [[Event.getSGfromIP "10.0.0.7" (some "sg-111"),
                           Event.createOutBoundSGRule "tcp" "sg-111" "db" ["5.6.7.8"] 5432,
                           Event.getSGRules "sg-111"]],
        exit := Exit.collecting } := by
  constructor <;> decide

/-- C8 as stated fails: with no file at `rules.csv` the loader hands no error
over and the run does not halt, `main` stays blocked on the channel; and where
`os.Stat` fails with an error other than not-exist, the panic is the nil
dereference of `finfo.Name()`, not the not-found error. -/
theorem C8_counterexample :
    ¬ (∀ (fs : FileSystem) (p : String) (resolve : Nat → String → Option String),
        p ≠ "" → (∀ content, fs p ≠ FileEntry.file content) →
        (readCSV fs p).recovered =
            some (Panic.errorsNew "File does not exist, in the mentioned path") ∧
          (main true p fs resolve).exit ≠ Exit.blockedOnLoader) ∧
    (main true "rules.csv" (fun _ => FileEntry.notExist) (fun _ _ => none)).exit =
      Exit.blockedOnLoader ∧
    (readCSV (fun _ => FileEntry.statError) "rules.csv").recovered =
      some Panic.nilDereference := by
  refine ⟨?_, by decide, by decide⟩
  intro h
  exact (h (fun _ => FileEntry.notExist) "rules.csv" (fun _ _ => none) (by decide)
    (by intro content hc; cases hc)).2 (by decide)

/-- C8, amended: for every path for which `os.Stat` reports that the file does
not exist, `readCSV` panics with the not-found error `File does not exist, in
the mentioned path`, which its own deferred `errRecover` catches and prints,
and it sends no list to its caller; the not-found error is raised in no other
case, and lists are sent only when no panic was caught. -/
theorem C8_missing_file_recovered (fs : FileSystem) (p : String) :
    (fs p = FileEntry.notExist →
      readCSV fs p =
        { recovered := some (Panic.errorsNew "File does not exist, in the mentioned path"),
          sent := [] }) ∧
    ((readCSV fs p).recovered =
        some (Panic.errorsNew "File does not exist, in the mentioned path") →
      fs p = FileEntry.notExist) ∧
    ((readCSV fs p).recovered ≠ none → (readCSV fs p).sent = []) := by
  refine ⟨?_, ?_, ?_⟩
  · intro h
    unfold readCSV
    rw [h]
  · intro h
    cases hp : fs p with
    | notExist => rfl
    | statError => simp [readCSV, hp] at h
    | file content =>
      cases hb : fs (basename p) with
      | notExist => simp [readCSV, hp, hb] at h
      | statError => simp [readCSV, hp, hb] at h
      | file c2 =>
        cases c2 with
        | none => simp [readCSV, hp, hb] at h
        | some recs =>
          cases hr : bucket recs with
          | none => simp [readCSV, hp, hb, hr] at h
          | some pr => simp [readCSV, hp, hb, hr] at h
  · intro h
    cases hp : fs p with
    | notExist => simp [readCSV, hp]
    | statError => simp [readCSV, hp]
    | file content =>
      cases hb : fs (basename p) with
      | notExist => simp [readCSV, hp, hb]
      | statError => simp [readCSV, hp, hb]
      | file c2 =>
        cases c2 with
        | none => simp [readCSV, hp, hb]
        | some recs =>
          cases hr : bucket recs with
          | none => simp [readCSV, hp, hb, hr]
          | some pr => simp [readCSV, hp, hb, hr] at h

/-- Witness of C8, amended: a file system without files and the path
`rules.csv`. -/
theorem C8_missing_file_recovered_witness :
    (fun _ => FileEntry.notExist : FileSystem) "rules.csv" = FileEntry.notExist ∧
    readCSV (fun _ => FileEntry.notExist) "rules.csv" =
      { recovered := some (Panic.errorsNew "File does not exist, in the mentioned path"),
        sent := [] } :=
  ⟨rfl, (C8_missing_file_recovered (fun _ => FileEntry.notExist) "rules.csv").1 rfl⟩

/-- C9, the code at a failing input: the path `conf/rules.csv` names a file
with one inbound row; `readCSV` opens `rules.csv`, the base name, instead: with
another file of that name in the working directory it returns the rows of
that file, and with none it panics on the open and sends nothing. -/
theorem C9_base_name_opened :
    (readCSV (fun p =>
        if p = "conf/rules.csv" then
          FileEntry.file (some [["h"], ["10.0.0.5", "tcp", "web", "443", "1.2.3.4", "inbound"]])
        else if p = "rules.csv" then
          FileEntry.file (some [["h"], ["10.9.9.9", "udp", "dns", "53", "8.8.8.8", "outbound"]])
        else FileEntry.notExist) "conf/rules.csv").sent =
      [[], [⟨["8.8.8.8"], "10.9.9.9", "udp", "dns", "53", "outbound"⟩]] ∧
    bucket [["h"], ["10.0.0.5", "tcp", "web", "443", "1.2.3.4", "inbound"]] =
      some ([⟨["1.2.3.4"], "10.0.0.5", "tcp", "web", "443", "inbound"⟩], []) ∧
    readCSV (fun p =>
        if p = "conf/rules.csv" then
          FileEntry.file (some [["h"], ["10.0.0.5", "tcp", "web", "443", "1.2.3.4", "inbound"]])
        else FileEntry.notExist) "conf/rules.csv" =
      { recovered := some Panic.osOpen, sent := [] } := by
  refine ⟨by decide, by decide, by decide⟩

end SgRule
